import Mathlib

/-!
Shallow embedding of the `compressed-fhir` DTO layer and of the storage
engine it relies on.

The DTO classes `FhirBundleEntry`, `FhirBundleEntryRequest` and
`FhirBundleEntryResponse` are translated directly from
`src/compressedfhir/fhir/`.  The storage engine (`CompressedDict`,
`CompressedDictStorageMode`, `FhirResource`), the helper
`FhirClientJsonHelpers.remove_empty_elements_from_ordered_dict` and the leaf
DTOs `FhirLink` / `FhirBundleEntrySearch` are imported by those files but
their sources are not part of the repository snapshot; they are modelled
from the specification, and each such definition carries a doc comment
saying so.

Python ordered mappings (`OrderedDict`) are embedded as association lists
`List (String × JsonValue)`; `None` is `JsonValue.null` (or `Option` at the
field level), `datetime` values are represented by their `isoformat()`
rendering, and exceptions are `Option`-valued results.
-/

set_option maxHeartbeats 1000000

/-- Model of a Python `datetime` value, identified by its `isoformat()`
rendering.  The DTO layer only ever calls `isoformat()` on a datetime and
copies it by value, so this is all the structure the embedding needs. -/
structure PyDateTime where
  isoformat : String
deriving DecidableEq, Repr

/-- JSON-like values held in the ordered mappings the DTO layer transports:
strings, integers, booleans, `None`, Python `datetime` objects, nested
ordered mappings and lists. -/
inductive JsonValue where
  | null : JsonValue
  | bool (b : Bool) : JsonValue
  | int (n : Int) : JsonValue
  | str (s : String) : JsonValue
  | date (dt : PyDateTime) : JsonValue
  | arr (xs : List JsonValue) : JsonValue
  | obj (m : List (String × JsonValue)) : JsonValue

/-- A Python `OrderedDict[str, Any]`: an insertion-ordered association list
with (by construction in all uses below) pairwise distinct keys. -/
abbrev JsonObject := List (String × JsonValue)

/-- `d[key]` / `key in d` on an ordered mapping: the first binding wins. -/
def lookupKey : JsonObject → String → Option JsonValue
  | [], _ => none
  | (k, v) :: rest, key => if k = key then some v else lookupKey rest key

/-- One optional slot of an ordered mapping: the `if x is not None:
result[k] = ...` pattern of the DTO `dict()` methods contributes either
nothing or a single binding. -/
def optField (k : String) : Option JsonValue → JsonObject
  | none => []
  | some v => [(k, v)]

/-- A JSON value counted as "empty" by the output scrubber: `None`, an
empty mapping or an empty list. -/
def isEmptyValue : JsonValue → Bool
  | .null => true
  | .obj [] => true
  | .arr [] => true
  | _ => false

/-- Modelled from the spec:
`FhirClientJsonHelpers.remove_empty_elements_from_ordered_dict`
(`compressedfhir/utilities/json_helpers.py`, not in the snapshot).  The spec
describes it as the collaborator that drops "empty/absent optional fields"
from a DTO's ordered mapping before JSON-encoding; it is modelled as
removing the top-level bindings whose value is `None`, `{}` or `[]`, and
keeping everything else (in particular non-empty strings and numbers) in
order. -/
def removeEmptyElementsFromOrderedDict (d : JsonObject) : JsonObject :=
  d.filter (fun kv => !(isEmptyValue kv.2))

/-- Modelled from the spec: `CompressedDictStorageMode`
(`compressedfhir/utilities/compressed_dict/v1/`, not in the snapshot).  "A
closed set of variants (at minimum: `Raw`, `Compressed`); carries no payload
itself, only selects behavior". -/
inductive CompressedDictStorageMode where
  | raw : CompressedDictStorageMode
  | compressed : CompressedDictStorageMode
deriving DecidableEq, Repr

/-- Modelled from the spec: `CompressedDictStorageMode.default()` — "a
single authoritative `default()` accessor returning the process-wide
default (configurable once at process start, stable thereafter)".  Which
variant is the default is not observable in the claims; the compressed
variant is used here. -/
def CompressedDictStorageMode.default : CompressedDictStorageMode :=
  CompressedDictStorageMode.compressed

/-- Modelled from the spec: the pluggable codec capability — "serialize
ordered mapping → compact bytes / bytes → ordered mapping (e.g.,
pack+compress, or identity)".  Decoding may fail on a corrupt payload
(`CorruptPayloadError`), hence the `Option`. -/
structure Codec (β : Type) where
  enc : JsonObject → β
  dec : β → Option JsonObject

/-- The codec contract from the spec: "decode(encode(x)) == x for every
representable document x". -/
def CodecLawful {β : Type} (c : Codec β) : Prop :=
  ∀ m : JsonObject, c.dec (c.enc m) = some m

/-- The identity codec, one of the spec's two examples of a codec
("pack+compress, or identity"). -/
def idCodec : Codec JsonObject :=
  { enc := fun m => m, dec := fun m => some m }

/-- Modelled from the spec: the two-representation state of a container —
"model as a tagged variant (`Materialized(mapping)` | `Compact(bytes,
key_index)`)". -/
inductive CompressedDictState (β : Type) where
  | materialized (m : JsonObject) : CompressedDictState β
  | compact (payload : β) (keyIndex : List String) : CompressedDictState β

/-- Modelled from the spec: `CompressedDict` / `FhirResource`
(`compressedfhir/utilities/compressed_dict/v1/compressed_dict.py`, not in
the snapshot): the storage engine owning either a materialized ordered
mapping or a compact payload plus a cached key index, together with its
immutable storage mode. -/
structure CompressedDict (β : Type) where
  state : CompressedDictState β
  storage_mode : CompressedDictStorageMode

/-- Modelled from the spec: container construction from an initial mapping
— "If given a mapping, stores it materialized or immediately encodes it per
`mode`".  `FhirResource(initial_dict=..., storage_mode=...)` is this
constructor. -/
def CompressedDict.construct {β : Type} (c : Codec β) (m : JsonObject)
    (mode : CompressedDictStorageMode) : CompressedDict β :=
  match mode with
  | .raw => ⟨.materialized m, mode⟩
  | .compressed => ⟨.compact (c.enc m) (m.map Prod.fst), mode⟩

/-- Modelled from the spec: `dict()` — "ordered mapping, materializing
transiently if currently compact"; decoding a corrupt payload fails
(`CorruptPayloadError`), hence the `Option`. -/
def CompressedDict.dict {β : Type} (c : Codec β) (d : CompressedDict β) :
    Option JsonObject :=
  match d.state with
  | .materialized m => some m
  | .compact p _ => c.dec p

/-- Modelled from the spec: `replace(value)` — "total replacement of
contents; re-derives representation per current mode". -/
def CompressedDict.replace {β : Type} (c : Codec β) (d : CompressedDict β)
    (m : JsonObject) : CompressedDict β :=
  CompressedDict.construct c m d.storage_mode

/-- Modelled from the spec: `deep_copy()` — "a new, independently owned
container with the same current representation and content".  At the level
of values the copy is equal to the source; the independence (fresh
identity) of the copy is modelled separately by the heap layer below. -/
def CompressedDict.deep_copy {β : Type} (d : CompressedDict β) :
    CompressedDict β := d

/-- Modelled from the spec: `FhirLink`
(`compressedfhir/fhir/fhir_link.py`, not in the snapshot) — one of the
"thin data-transfer objects ... that convert to/from ordered key-value
mappings" losslessly; modelled as a wrapper around its ordered mapping. -/
structure FhirLink where
  data : JsonObject

/-- Modelled from the spec: `FhirLink.from_dict`. -/
def FhirLink.from_dict (m : JsonObject) : FhirLink := ⟨m⟩

/-- Modelled from the spec: `FhirLink.dict`. -/
def FhirLink.dict (l : FhirLink) : JsonObject := l.data

/-- Modelled from the spec: `FhirBundleEntrySearch`
(`compressedfhir/fhir/fhir_bundle_entry_search.py`, not in the snapshot) —
a thin DTO like `FhirLink`, modelled as a wrapper around its ordered
mapping. -/
structure FhirBundleEntrySearch where
  data : JsonObject

/-- Modelled from the spec: `FhirBundleEntrySearch.from_dict`. -/
def FhirBundleEntrySearch.from_dict (m : JsonObject) : FhirBundleEntrySearch := ⟨m⟩

/-- Modelled from the spec: `FhirBundleEntrySearch.dict`. -/
def FhirBundleEntrySearch.dict (s : FhirBundleEntrySearch) : JsonObject := s.data

/-- `FhirBundleEntryRequest` (`fhir_bundle_entry_request.py`): url, method
and the three optional conditional-request headers, as declared by its
`__slots__` and type annotations. -/
structure FhirBundleEntryRequest where
  url : String
  method : String
  ifModifiedSince : Option PyDateTime
  ifNoneMatch : Option String
  ifNoneExist : Option String
deriving DecidableEq, Repr

/-- `FhirBundleEntryRequest.__init__`: stores the arguments, replacing a
falsy (empty) `url` by `"https://example.com"` and a falsy (empty) `method`
by `"GET"`. -/
def FhirBundleEntryRequest.init (url : String) (method : String)
    (ifNoneMatch : Option String) (ifModifiedSince : Option PyDateTime)
    (ifNoneExist : Option String) : FhirBundleEntryRequest :=
  { url := if url = "" then "https://example.com" else url
    method := if method = "" then "GET" else method
    ifModifiedSince := ifModifiedSince
    ifNoneMatch := ifNoneMatch
    ifNoneExist := ifNoneExist }

/-- `FhirBundleEntryRequest.dict`: emits `url`, `method`, then each
optional field that is set, in declared order, and scrubs the result with
`remove_empty_elements_from_ordered_dict`. -/
def FhirBundleEntryRequest.dict (r : FhirBundleEntryRequest) : JsonObject :=
  removeEmptyElementsFromOrderedDict
    ([("url", .str r.url), ("method", .str r.method)]
      ++ (optField "ifModifiedSince" (r.ifModifiedSince.map fun dt => .str dt.isoformat)
      ++ (optField "ifNoneMatch" (r.ifNoneMatch.map .str)
      ++ optField "ifNoneExist" (r.ifNoneExist.map .str))))

/-- `d.get(k, dflt)` for a string-valued field that is then passed through
a falsy-default in `__init__`: a missing key or a `None` value yields the
default (in Python `d.get` returns `None` which the constructor's
`or`-default then replaces).  A present value outside the declared `str`
shape is not modelled (`none`). -/
def getStrOrDefault (d : JsonObject) (k dflt : String) : Option String :=
  match lookupKey d k with
  | none => some dflt
  | some .null => some dflt
  | some (.str s) => some s
  | some _ => none

/-- `d[k] if k in d else None` for an optional string-valued field.  A
present value outside the declared `str`/`None` shape is not modelled
(`none`). -/
def getOptStr (d : JsonObject) (k : String) : Option (Option String) :=
  match lookupKey d k with
  | none => some none
  | some .null => some none
  | some (.str s) => some (some s)
  | some _ => none

/-- The shared datetime-field pattern of `from_dict` in
`fhir_bundle_entry_request.py` and `fhir_bundle_entry_response.py`: a
`datetime` value is kept, a string is parsed with
`datetime.fromisoformat` (whose `ValueError` propagates, hence the outer
`Option`), and any other value — including an absent key — leaves the field
`None`.  `parse` is the embedding of `datetime.fromisoformat`. -/
def parseDateField (parse : String → Option PyDateTime) (d : JsonObject)
    (k : String) : Option (Option PyDateTime) :=
  match lookupKey d k with
  | some (.date dt) => some (some dt)
  | some (.str s) =>
    match parse s with
    | some dt => some (some dt)
    | none => none
  | _ => some none

/-- `FhirBundleEntryRequest.from_dict`: reads each field from the mapping,
defaulting `url` and `method` when absent, parsing `ifModifiedSince`, and
delegates to the constructor. -/
def FhirBundleEntryRequest.from_dict (parse : String → Option PyDateTime)
    (d : JsonObject) : Option FhirBundleEntryRequest :=
  (parseDateField parse d "ifModifiedSince").bind fun imsO =>
  (getStrOrDefault d "url" "https://example.com").bind fun url =>
  (getStrOrDefault d "method" "GET").bind fun method =>
  (getOptStr d "ifNoneMatch").bind fun nm =>
  (getOptStr d "ifNoneExist").bind fun nev =>
  some (FhirBundleEntryRequest.init url method nm imsO nev)

/-- `FhirBundleEntryRequest.__deepcopy__`: rebuilds the object through the
constructor from the current field values. -/
def FhirBundleEntryRequest.deepcopy (r : FhirBundleEntryRequest) :
    FhirBundleEntryRequest :=
  FhirBundleEntryRequest.init r.url r.method r.ifNoneMatch r.ifModifiedSince
    r.ifNoneExist

/-- `FhirBundleEntryResponse` (`fhir_bundle_entry_response.py`): status and
the three optional response fields, as declared by its `__slots__` and type
annotations. -/
structure FhirBundleEntryResponse where
  status : String
  lastModified : Option PyDateTime
  etag : Option String
  location : Option String
deriving DecidableEq, Repr

/-- The `status` argument of `FhirBundleEntryResponse.__init__`, which may
be a string (as annotated) or an integer (explicitly handled by the
constructor's `isinstance(status, int)` branch). -/
inductive StatusArg where
  | str (s : String) : StatusArg
  | int (n : Int) : StatusArg
deriving DecidableEq, Repr

/-- `FhirBundleEntryResponse.__init__`: `self.status = status or "200"`
followed by `if isinstance(status, int): self.status = str(status)` — an
integer argument (even the falsy `0`) ends up as its decimal rendering, an
empty string as `"200"`. -/
def FhirBundleEntryResponse.init (status : StatusArg) (etag : Option String)
    (lastModified : Option PyDateTime) (location : Option String) :
    FhirBundleEntryResponse :=
  { status :=
      match status with
      | .str s => if s = "" then "200" else s
      | .int n => toString n
    lastModified := lastModified
    etag := etag
    location := location }

/-- `FhirBundleEntryResponse.dict`: emits `status`, then each optional
field that is set, in declared order, and scrubs the result with
`remove_empty_elements_from_ordered_dict`. -/
def FhirBundleEntryResponse.dict (r : FhirBundleEntryResponse) : JsonObject :=
  removeEmptyElementsFromOrderedDict
    ([("status", .str r.status)]
      ++ (optField "lastModified" (r.lastModified.map fun dt => .str dt.isoformat)
      ++ (optField "etag" (r.etag.map .str)
      ++ optField "location" (r.location.map .str))))

/-- `d["status"] if "status" in d else "200"`: the status value handed to
the constructor, which may be a string or an integer; a missing key yields
`"200"`, a `None` value is falsy and ends up as `"200"` in the
constructor.  A present value outside those shapes is not modelled. -/
def getStatusArg (d : JsonObject) : Option StatusArg :=
  match lookupKey d "status" with
  | none => some (.str "200")
  | some .null => some (.str "")
  | some (.str s) => some (.str s)
  | some (.int n) => some (.int n)
  | some _ => none

/-- `FhirBundleEntryResponse.from_dict`: reads each field from the mapping,
defaulting a missing `status` to `"200"`, parsing `lastModified`, and
delegates to the constructor. -/
def FhirBundleEntryResponse.from_dict (parse : String → Option PyDateTime)
    (d : JsonObject) : Option FhirBundleEntryResponse :=
  (parseDateField parse d "lastModified").bind fun lm =>
  (getStatusArg d).bind fun status =>
  (getOptStr d "etag").bind fun etag =>
  (getOptStr d "location").bind fun location =>
  some (FhirBundleEntryResponse.init status etag lm location)

/-- `FhirBundleEntryResponse.__deepcopy__`: rebuilds the object through the
constructor from the current field values. -/
def FhirBundleEntryResponse.deepcopy (r : FhirBundleEntryResponse) :
    FhirBundleEntryResponse :=
  FhirBundleEntryResponse.init (.str r.status) r.etag r.lastModified r.location

/-- `FhirBundleEntry` (`fhir_bundle_entry.py`): one entry of a FHIR bundle,
with its `__slots__` fields.  The resource is held in a `CompressedDict`
(`FhirResource`), parametrized by the codec's payload type `β`. -/
structure FhirBundleEntry (β : Type) where
  _resource : Option (CompressedDict β)
  request : Option FhirBundleEntryRequest
  response : Option FhirBundleEntryResponse
  fullUrl : Option String
  link : Option (List FhirLink)
  search : Option FhirBundleEntrySearch
  storage_mode : CompressedDictStorageMode

/-- The `resource` argument of `FhirBundleEntry.__init__` (and of the
`resource` property setter): either an existing `CompressedDict` /
`FhirResource` instance or a plain mapping. -/
inductive ResourceArg (β : Type) where
  | container (c : CompressedDict β) : ResourceArg β
  | dict (m : JsonObject) : ResourceArg β

/-- `FhirBundleEntry.__init__`: an existing `CompressedDict` resource is
stored as-is, a plain mapping is wrapped in a fresh
`FhirResource(initial_dict=..., storage_mode=storage_mode)`, `None` stays
`None`; the remaining fields are stored unchanged. -/
def FhirBundleEntry.init {β : Type} (codec : Codec β) (fullUrl : Option String)
    (resource : Option (ResourceArg β)) (request : Option FhirBundleEntryRequest)
    (response : Option FhirBundleEntryResponse) (link : Option (List FhirLink))
    (search : Option FhirBundleEntrySearch)
    (storage_mode : CompressedDictStorageMode) : FhirBundleEntry β :=
  { _resource :=
      match resource with
      | none => none
      | some (.container c) => some c
      | some (.dict m) => some (CompressedDict.construct codec m storage_mode)
    request := request
    response := response
    fullUrl := fullUrl
    link := link
    search := search
    storage_mode := storage_mode }

/-- `FhirBundleEntry.construct`: the classmethod simply delegates to
`__init__` with the same arguments. -/
def FhirBundleEntry.construct {β : Type} (codec : Codec β)
    (fullUrl : Option String) (resource : Option (ResourceArg β))
    (request : Option FhirBundleEntryRequest)
    (response : Option FhirBundleEntryResponse) (link : Option (List FhirLink))
    (search : Option FhirBundleEntrySearch)
    (storage_mode : CompressedDictStorageMode) : FhirBundleEntry β :=
  FhirBundleEntry.init codec fullUrl resource request response link search
    storage_mode

/-- The `resource` property setter: `None` clears the field, an existing
`CompressedDict` is stored as-is, and a plain mapping either initializes a
fresh `FhirResource` with the entry's `storage_mode` (when no container
exists yet) or replaces the existing container's contents in place. -/
def FhirBundleEntry.setResource {β : Type} (codec : Codec β)
    (e : FhirBundleEntry β) (value : Option (ResourceArg β)) :
    FhirBundleEntry β :=
  match value with
  | none => { e with _resource := none }
  | some (.container c) => { e with _resource := some c }
  | some (.dict m) =>
    match e._resource with
    | none =>
      { e with _resource := some (CompressedDict.construct codec m e.storage_mode) }
    | some r => { e with _resource := some (r.replace codec m) }

/-- The ordered mapping built by `FhirBundleEntry.dict` before scrubbing:
each set field contributes its binding, in the declared order `fullUrl`,
`resource`, `request`, `response`, `link`, `search`.  `rdOpt` is the
materialized resource mapping (when a resource is present). -/
def entryParts {β : Type} (e : FhirBundleEntry β) (rdOpt : Option JsonObject) :
    JsonObject :=
  optField "fullUrl" (e.fullUrl.map .str)
    ++ (optField "resource" (rdOpt.map .obj)
    ++ (optField "request" (e.request.map fun r => .obj r.dict)
    ++ (optField "response" (e.response.map fun r => .obj r.dict)
    ++ (optField "link" (e.link.map fun ls => .arr (ls.map fun l => .obj l.dict))
    ++ optField "search" (e.search.map fun s => .obj s.dict)))))

/-- `FhirBundleEntry.dict`: emits each set field in declared order (the
resource through `self.resource.dict()`, which fails on a corrupt compact
payload, hence the `Option`) and scrubs the result with
`remove_empty_elements_from_ordered_dict`. -/
def FhirBundleEntry.dict {β : Type} (codec : Codec β) (e : FhirBundleEntry β) :
    Option JsonObject :=
  match e._resource with
  | none => some (removeEmptyElementsFromOrderedDict (entryParts e none))
  | some r =>
    match r.dict codec with
    | none => none
    | some rd => some (removeEmptyElementsFromOrderedDict (entryParts e (some rd)))

/-- The `resource` field read by `FhirBundleEntry.from_dict`:
`FhirResource(initial_dict=d["resource"], storage_mode=storage_mode)` when
the key is present.  A present value outside the declared mapping shape is
not modelled (`none`). -/
def getResourceField {β : Type} (codec : Codec β) (d : JsonObject)
    (storage_mode : CompressedDictStorageMode) :
    Option (Option (CompressedDict β)) :=
  match lookupKey d "resource" with
  | none => some none
  | some (.obj m) => some (some (CompressedDict.construct codec m storage_mode))
  | some _ => none

/-- The `request` field read by `FhirBundleEntry.from_dict`:
`FhirBundleEntryRequest.from_dict(d["request"])` when the key is present
(its parse failure propagates). -/
def getRequestField (parse : String → Option PyDateTime) (d : JsonObject) :
    Option (Option FhirBundleEntryRequest) :=
  match lookupKey d "request" with
  | none => some none
  | some (.obj m) => (FhirBundleEntryRequest.from_dict parse m).map some
  | some _ => none

/-- The `response` field read by `FhirBundleEntry.from_dict`:
`FhirBundleEntryResponse.from_dict(d["response"])` when the key is present
(its parse failure propagates). -/
def getResponseField (parse : String → Option PyDateTime) (d : JsonObject) :
    Option (Option FhirBundleEntryResponse) :=
  match lookupKey d "response" with
  | none => some none
  | some (.obj m) => (FhirBundleEntryResponse.from_dict parse m).map some
  | some _ => none

/-- `[FhirLink.from_dict(link) for link in d["link"]]`: each element of the
list must be a mapping. -/
def linkListFromJson : List JsonValue → Option (List FhirLink)
  | [] => some []
  | .obj m :: rest => (linkListFromJson rest).map (fun ls => FhirLink.from_dict m :: ls)
  | _ :: _ => none

/-- The `link` field read by `FhirBundleEntry.from_dict`. -/
def getLinkField (d : JsonObject) : Option (Option (List FhirLink)) :=
  match lookupKey d "link" with
  | none => some none
  | some (.arr xs) => (linkListFromJson xs).map some
  | some _ => none

/-- The `search` field read by `FhirBundleEntry.from_dict`:
`FhirBundleEntrySearch.from_dict(d["search"])` when the key is present. -/
def getSearchField (d : JsonObject) : Option (Option FhirBundleEntrySearch) :=
  match lookupKey d "search" with
  | none => some none
  | some (.obj m) => some (some (FhirBundleEntrySearch.from_dict m))
  | some _ => none

/-- `FhirBundleEntry.from_dict`: reads each of the six fields from the
mapping (each absent key yields `None`) and delegates to the constructor,
handing the already-built `FhirResource` container to it and propagating
`storage_mode` to both the container and the entry. -/
def FhirBundleEntry.from_dict {β : Type} (codec : Codec β)
    (parse : String → Option PyDateTime) (d : JsonObject)
    (storage_mode : CompressedDictStorageMode) : Option (FhirBundleEntry β) :=
  (getOptStr d "fullUrl").bind fun fullUrl =>
  (getResourceField codec d storage_mode).bind fun res =>
  (getRequestField parse d).bind fun req =>
  (getResponseField parse d).bind fun resp =>
  (getLinkField d).bind fun lk =>
  (getSearchField d).bind fun se =>
  some (FhirBundleEntry.init codec fullUrl (res.map ResourceArg.container)
    req resp lk se storage_mode)

/-- `FhirBundleEntry.__deepcopy__`: rebuilds the entry through the
constructor, deep-copying the resource container (as an existing
`CompressedDict` instance, which the constructor stores as-is) and the
other objects; `link` is guarded by Python truthiness, so an empty list
becomes `None`. -/
def FhirBundleEntry.deepcopy {β : Type} (codec : Codec β)
    (e : FhirBundleEntry β) : FhirBundleEntry β :=
  FhirBundleEntry.init codec e.fullUrl
    (e._resource.map fun r => ResourceArg.container r.deep_copy)
    (e.request.map FhirBundleEntryRequest.deepcopy)
    (e.response.map FhirBundleEntryResponse.deepcopy)
    (match e.link with
     | none => none
     | some [] => none
     | some ls => some ls)
    e.search e.storage_mode

/-- `FhirBundleEntry.copy`: `copy.deepcopy(self)`, i.e. `__deepcopy__`. -/
def FhirBundleEntry.copy {β : Type} (codec : Codec β) (e : FhirBundleEntry β) :
    FhirBundleEntry β :=
  FhirBundleEntry.deepcopy codec e

/-- A heap of `CompressedDict` container instances, used to model Python
object identity: an address is an index into the store, and two domain
objects share a container exactly when they hold the same address.  The
spec's ownership discipline ("a container is exclusively owned by exactly
one domain object; sharing the same container instance across two domain
objects is disallowed") is a statement about this layer. -/
structure Heap (β : Type) where
  store : List (CompressedDict β)

/-- Allocate a fresh container instance; the new address is the current
store length, so it differs from every previously valid address. -/
def Heap.alloc {β : Type} (h : Heap β) (c : CompressedDict β) : Nat × Heap β :=
  (h.store.length, ⟨h.store ++ [c]⟩)

/-- Read the container instance at an address. -/
def Heap.get {β : Type} (h : Heap β) (a : Nat) : Option (CompressedDict β) :=
  h.store[a]?

/-- Overwrite the container instance at an address (an in-place mutation of
that instance, e.g. `replace` or a transaction-scoped field update). -/
def Heap.write {β : Type} (h : Heap β) (a : Nat) (c : CompressedDict β) :
    Heap β :=
  ⟨h.store.set a c⟩

/-- `FhirBundleEntry` at the reference level: identical to the value-level
record except that the resource slot holds the address of a container
instance rather than its value. -/
structure FhirBundleEntryH where
  resourceAddr : Option Nat
  request : Option FhirBundleEntryRequest
  response : Option FhirBundleEntryResponse
  fullUrl : Option String
  link : Option (List FhirLink)
  search : Option FhirBundleEntrySearch
  storage_mode : CompressedDictStorageMode

/-- The `resource` argument at the reference level: an existing container
instance is passed by reference (its address), a plain mapping by value. -/
inductive ResourceArgH (β : Type) where
  | ref (a : Nat) : ResourceArgH β
  | dict (m : JsonObject) : ResourceArgH β

/-- `FhirBundleEntry.__init__` at the reference level: an existing
`CompressedDict` argument is stored as-is — the entry holds the caller's
instance — while a plain mapping allocates a fresh `FhirResource`
container. -/
def FhirBundleEntryH.init {β : Type} (codec : Codec β) (h : Heap β)
    (fullUrl : Option String) (resource : Option (ResourceArgH β))
    (request : Option FhirBundleEntryRequest)
    (response : Option FhirBundleEntryResponse) (link : Option (List FhirLink))
    (search : Option FhirBundleEntrySearch)
    (storage_mode : CompressedDictStorageMode) : FhirBundleEntryH × Heap β :=
  match resource with
  | none =>
    (⟨none, request, response, fullUrl, link, search, storage_mode⟩, h)
  | some (.ref a) =>
    (⟨some a, request, response, fullUrl, link, search, storage_mode⟩, h)
  | some (.dict m) =>
    let (a, h') := h.alloc (CompressedDict.construct codec m storage_mode)
    (⟨some a, request, response, fullUrl, link, search, storage_mode⟩, h')

/-- The `resource` property setter at the reference level: a mapping
assigned while no container exists allocates a fresh container; a mapping
assigned over an existing container replaces that instance's contents in
place (same address); an existing `CompressedDict` is stored by
reference. -/
def FhirBundleEntryH.setResource {β : Type} (codec : Codec β) (h : Heap β)
    (e : FhirBundleEntryH) (value : Option (ResourceArgH β)) :
    FhirBundleEntryH × Heap β :=
  match value with
  | none => ({ e with resourceAddr := none }, h)
  | some (.ref a) => ({ e with resourceAddr := some a }, h)
  | some (.dict m) =>
    match e.resourceAddr with
    | none =>
      let (a, h') := h.alloc (CompressedDict.construct codec m e.storage_mode)
      ({ e with resourceAddr := some a }, h')
    | some a =>
      match h.get a with
      | none => ({ e with resourceAddr := some a }, h)
      | some r => ({ e with resourceAddr := some a }, h.write a (r.replace codec m))

/-- The ordered mapping built by `FhirBundleEntry.dict` at the reference
level, before scrubbing. -/
def entryPartsH (e : FhirBundleEntryH) (rdOpt : Option JsonObject) :
    JsonObject :=
  optField "fullUrl" (e.fullUrl.map .str)
    ++ (optField "resource" (rdOpt.map .obj)
    ++ (optField "request" (e.request.map fun r => .obj r.dict)
    ++ (optField "response" (e.response.map fun r => .obj r.dict)
    ++ (optField "link" (e.link.map fun ls => .arr (ls.map fun l => .obj l.dict))
    ++ optField "search" (e.search.map fun s => .obj s.dict)))))

/-- `FhirBundleEntry.dict` at the reference level: the resource content is
read through the entry's container address. -/
def FhirBundleEntryH.dict {β : Type} (codec : Codec β) (h : Heap β)
    (e : FhirBundleEntryH) : Option JsonObject :=
  match e.resourceAddr with
  | none => some (removeEmptyElementsFromOrderedDict (entryPartsH e none))
  | some a =>
    match h.get a with
    | none => none
    | some r =>
      match r.dict codec with
      | none => none
      | some rd =>
        some (removeEmptyElementsFromOrderedDict (entryPartsH e (some rd)))

/-- `FhirBundleEntry.__deepcopy__` at the reference level:
`copy.deepcopy(self.resource)` allocates a fresh, independently owned
container instance with the same content, which the constructor then
stores as-is; the other fields are rebuilt as in the value-level copy
(`link` is guarded by Python truthiness, so an empty list becomes
`None`). -/
def FhirBundleEntryH.deepcopy {β : Type} (codec : Codec β) (h : Heap β)
    (e : FhirBundleEntryH) : FhirBundleEntryH × Heap β :=
  match e.resourceAddr with
  | none =>
    FhirBundleEntryH.init codec h e.fullUrl none
      (e.request.map FhirBundleEntryRequest.deepcopy)
      (e.response.map FhirBundleEntryResponse.deepcopy)
      (match e.link with
       | none => none
       | some [] => none
       | some ls => some ls)
      e.search e.storage_mode
  | some a =>
    match h.get a with
    | none =>
      FhirBundleEntryH.init codec h e.fullUrl none
        (e.request.map FhirBundleEntryRequest.deepcopy)
        (e.response.map FhirBundleEntryResponse.deepcopy)
        (match e.link with
         | none => none
         | some [] => none
         | some ls => some ls)
        e.search e.storage_mode
    | some r =>
      let (a', h') := h.alloc r.deep_copy
      FhirBundleEntryH.init codec h' e.fullUrl (some (.ref a'))
        (e.request.map FhirBundleEntryRequest.deepcopy)
        (e.response.map FhirBundleEntryResponse.deepcopy)
        (match e.link with
         | none => none
         | some [] => none
         | some ls => some ls)
        e.search e.storage_mode

/-- `FhirBundleEntry.copy` at the reference level: `copy.deepcopy(self)`. -/
def FhirBundleEntryH.copy {β : Type} (codec : Codec β) (h : Heap β)
    (e : FhirBundleEntryH) : FhirBundleEntryH × Heap β :=
  FhirBundleEntryH.deepcopy codec h e

/-- An isoformat string is canonical for a given parse function when
`datetime.fromisoformat` accepts it and `isoformat()` renders it back
verbatim. -/
def CanonicalIso (parse : String → Option PyDateTime) (s : String) : Prop :=
  ∃ dt, parse s = some dt ∧ dt.isoformat = s

/-- A request mapping with its keys in the declared emission order of
`FhirBundleEntryRequest.dict`. -/
def requestShape (url method : String) (imsv nmv nev : Option String) :
    JsonObject :=
  [("url", .str url), ("method", .str method)]
    ++ (optField "ifModifiedSince" (imsv.map .str)
    ++ (optField "ifNoneMatch" (nmv.map .str)
    ++ optField "ifNoneExist" (nev.map .str)))

/-- A request mapping that `FhirBundleEntryRequest.from_dict` followed by
`dict()` reproduces verbatim: keys in declared order, `url` and `method`
present and non-empty, `ifModifiedSince` absent or a canonical isoformat
string. -/
def RequestRoundTrippable (parse : String → Option PyDateTime)
    (rd : JsonObject) : Prop :=
  ∃ (url method : String) (imsv nmv nev : Option String),
    rd = requestShape url method imsv nmv nev ∧ url ≠ "" ∧ method ≠ "" ∧
    (∀ s, imsv = some s → CanonicalIso parse s)

/-- A response mapping with its keys in the declared emission order of
`FhirBundleEntryResponse.dict`. -/
def responseShape (status : String) (lmv etagv locv : Option String) :
    JsonObject :=
  [("status", .str status)]
    ++ (optField "lastModified" (lmv.map .str)
    ++ (optField "etag" (etagv.map .str)
    ++ optField "location" (locv.map .str)))

/-- A response mapping that `FhirBundleEntryResponse.from_dict` followed by
`dict()` reproduces verbatim: keys in declared order, `status` present and
a non-empty string, `lastModified` absent or a canonical isoformat
string. -/
def ResponseRoundTrippable (parse : String → Option PyDateTime)
    (rd : JsonObject) : Prop :=
  ∃ (status : String) (lmv etagv locv : Option String),
    rd = responseShape status lmv etagv locv ∧ status ≠ "" ∧
    (∀ s, lmv = some s → CanonicalIso parse s)

/-- An entry mapping with its keys in the declared emission order of
`FhirBundleEntry.dict`. -/
def entryShape (fu : Option String) (res rq rs : Option JsonObject)
    (lk : Option (List JsonObject)) (se : Option JsonObject) : JsonObject :=
  optField "fullUrl" (fu.map .str)
    ++ (optField "resource" (res.map .obj)
    ++ (optField "request" (rq.map .obj)
    ++ (optField "response" (rs.map .obj)
    ++ (optField "link" (lk.map fun ls => .arr (ls.map .obj))
    ++ optField "search" (se.map .obj)))))

/-- An entry mapping that `FhirBundleEntry.from_dict` followed by `dict()`
reproduces verbatim: keys among the six declared ones in declared order,
values of the declared shapes, present `resource`/`search` mappings and the
`link` list non-empty (so the output scrubber keeps them), and nested
request/response mappings round-trippable in their own right. -/
def EntryRoundTrippable (parse : String → Option PyDateTime)
    (d : JsonObject) : Prop :=
  ∃ (fu : Option String) (res rq rs : Option JsonObject)
    (lk : Option (List JsonObject)) (se : Option JsonObject),
    d = entryShape fu res rq rs lk se ∧
    (∀ m, res = some m → m ≠ []) ∧
    (∀ rd, rq = some rd → RequestRoundTrippable parse rd) ∧
    (∀ rd, rs = some rd → ResponseRoundTrippable parse rd) ∧
    (∀ ls, lk = some ls → ls ≠ []) ∧
    (∀ m, se = some m → m ≠ [])

/-- The declared key order of `FhirBundleEntry.dict`. -/
def entryKeyOrder : List String :=
  ["fullUrl", "resource", "request", "response", "link", "search"]

/-- The declared key order of `FhirBundleEntryRequest.dict`. -/
def requestKeyOrder : List String :=
  ["url", "method", "ifModifiedSince", "ifNoneMatch", "ifNoneExist"]

/-- The declared key order of `FhirBundleEntryResponse.dict`. -/
def responseKeyOrder : List String :=
  ["status", "lastModified", "etag", "location"]

/-- A one-container heap used to instantiate the reference-level theorems
on concrete data. -/
def exampleHeap : Heap JsonObject :=
  ⟨[CompressedDict.construct idCodec [("id", .str "1")]
      CompressedDictStorageMode.raw]⟩

/-- An entry holding (by reference) the single container of `exampleHeap`. -/
def exampleEntryH : FhirBundleEntryH :=
  ⟨some 0, none, none, none, none, none, CompressedDictStorageMode.raw⟩

theorem isEmptyValue_str (s : String) : isEmptyValue (.str s) = false := rfl

theorem isEmptyValue_obj_of_ne {m : JsonObject} (h : m ≠ []) :
    isEmptyValue (.obj m) = false := by
  cases m with
  | nil => exact absurd rfl h
  | cons kv l => rfl

theorem isEmptyValue_arr_of_ne {xs : List JsonValue} (h : xs ≠ []) :
    isEmptyValue (.arr xs) = false := by
  cases xs with
  | nil => exact absurd rfl h
  | cons x l => rfl

theorem removeEmpty_append (l₁ l₂ : JsonObject) :
    removeEmptyElementsFromOrderedDict (l₁ ++ l₂)
      = removeEmptyElementsFromOrderedDict l₁
        ++ removeEmptyElementsFromOrderedDict l₂ := by
  simp [removeEmptyElementsFromOrderedDict]

theorem removeEmpty_optField {k : String} (o : Option JsonValue)
    (h : ∀ v, o = some v → isEmptyValue v = false) :
    removeEmptyElementsFromOrderedDict (optField k o) = optField k o := by
  cases o with
  | none => rfl
  | some v => simp [optField, removeEmptyElementsFromOrderedDict, h v rfl]

theorem removeEmpty_cons_keep {k : String} {v : JsonValue}
    (hv : isEmptyValue v = false) (l : JsonObject) :
    removeEmptyElementsFromOrderedDict ((k, v) :: l)
      = (k, v) :: removeEmptyElementsFromOrderedDict l := by
  simp [removeEmptyElementsFromOrderedDict, hv]

theorem mapStr_nonEmpty (o : Option String) :
    ∀ v, o.map JsonValue.str = some v → isEmptyValue v = false := by
  intro v hv
  cases o with
  | none => simp at hv
  | some s =>
    simp at hv
    rw [← hv]
    rfl

theorem lookupKey_optField_ne {k k' : String} (v : Option JsonValue)
    (rest : JsonObject) (h : ¬ k' = k) :
    lookupKey (optField k' v ++ rest) k = lookupKey rest k := by
  cases v <;> simp [optField, lookupKey, h]

theorem lookupKey_optField_self {k : String} (v : Option JsonValue)
    {rest : JsonObject} (h : lookupKey rest k = none) :
    lookupKey (optField k v ++ rest) k = v := by
  cases v <;> simp [optField, lookupKey, h]

theorem getOptStr_of_lookup_str {d : JsonObject} {k : String}
    {o : Option String} (h : lookupKey d k = o.map .str) :
    getOptStr d k = some o := by
  cases o <;> simp [getOptStr, h]

theorem getStrOrDefault_of_lookup_str (dflt : String) {d : JsonObject} {k s : String}
    (h : lookupKey d k = some (.str s)) :
    getStrOrDefault d k dflt = some s := by
  simp [getStrOrDefault, h]

theorem parseDateField_of_lookup_none {parse : String → Option PyDateTime}
    {d : JsonObject} {k : String} (h : lookupKey d k = none) :
    parseDateField parse d k = some none := by
  simp [parseDateField, h]

theorem parseDateField_of_lookup_str {parse : String → Option PyDateTime}
    {d : JsonObject} {k s : String} {dt : PyDateTime}
    (h : lookupKey d k = some (.str s)) (hp : parse s = some dt) :
    parseDateField parse d k = some (some dt) := by
  simp [parseDateField, h, hp]

theorem CompressedDict.dict_construct {β : Type} {c : Codec β}
    (hc : CodecLawful c) (m : JsonObject) (mode : CompressedDictStorageMode) :
    (CompressedDict.construct c m mode).dict c = some m := by
  cases mode <;> simp [CompressedDict.construct, CompressedDict.dict, hc m]

theorem CompressedDict.construct_storage_mode {β : Type} (c : Codec β)
    (m : JsonObject) (mode : CompressedDictStorageMode) :
    (CompressedDict.construct c m mode).storage_mode = mode := by
  cases mode <;> rfl

theorem requestShape_lookups (url method : String) (imsv nmv nev : Option String) :
    lookupKey (requestShape url method imsv nmv nev) "url" = some (.str url) ∧
    lookupKey (requestShape url method imsv nmv nev) "method" = some (.str method) ∧
    lookupKey (requestShape url method imsv nmv nev) "ifModifiedSince" = imsv.map .str ∧
    lookupKey (requestShape url method imsv nmv nev) "ifNoneMatch" = nmv.map .str ∧
    lookupKey (requestShape url method imsv nmv nev) "ifNoneExist" = nev.map .str := by
  cases imsv <;> cases nmv <;> cases nev <;>
    simp [requestShape, optField, lookupKey]

theorem request_dict_of_init (url method : String)
    (imsOpt : Option PyDateTime) (nmv nev : Option String)
    (hu : url ≠ "") (hm : method ≠ "") :
    (FhirBundleEntryRequest.init url method nmv imsOpt nev).dict
      = requestShape url method (imsOpt.map PyDateTime.isoformat) nmv nev := by
  cases imsOpt <;> cases nmv <;> cases nev <;>
    simp [FhirBundleEntryRequest.init, FhirBundleEntryRequest.dict, hu, hm,
      requestShape, optField, removeEmptyElementsFromOrderedDict, isEmptyValue]

theorem request_roundtrip {parse : String → Option PyDateTime}
    {rd : JsonObject} (h : RequestRoundTrippable parse rd) :
    ∃ r, FhirBundleEntryRequest.from_dict parse rd = some r ∧ r.dict = rd := by
  obtain ⟨url, method, imsv, nmv, nev, rfl, hu, hm, hims⟩ := h
  obtain ⟨hl1, hl2, hl3, hl4, hl5⟩ := requestShape_lookups url method imsv nmv nev
  have h2 := getStrOrDefault_of_lookup_str "https://example.com" hl1
  have h3 := getStrOrDefault_of_lookup_str "GET" hl2
  have h4 := getOptStr_of_lookup_str hl4
  have h5 := getOptStr_of_lookup_str hl5
  cases imsv with
  | none =>
    have h1 : parseDateField parse (requestShape url method none nmv nev)
        "ifModifiedSince" = some none :=
      parseDateField_of_lookup_none (by simpa using hl3)
    refine ⟨FhirBundleEntryRequest.init url method nmv none nev, ?_, ?_⟩
    · simp [FhirBundleEntryRequest.from_dict, h1, h2, h3, h4, h5]
    · simpa using request_dict_of_init url method none nmv nev hu hm
  | some s =>
    obtain ⟨dt, hps, hiso⟩ := hims s rfl
    have h1 : parseDateField parse (requestShape url method (some s) nmv nev)
        "ifModifiedSince" = some (some dt) :=
      parseDateField_of_lookup_str (by simpa using hl3) hps
    refine ⟨FhirBundleEntryRequest.init url method nmv (some dt) nev, ?_, ?_⟩
    · simp [FhirBundleEntryRequest.from_dict, h1, h2, h3, h4, h5]
    · have := request_dict_of_init url method (some dt) nmv nev hu hm
      simpa [hiso] using this

theorem responseShape_lookups (status : String) (lmv etagv locv : Option String) :
    lookupKey (responseShape status lmv etagv locv) "status" = some (.str status) ∧
    lookupKey (responseShape status lmv etagv locv) "lastModified" = lmv.map .str ∧
    lookupKey (responseShape status lmv etagv locv) "etag" = etagv.map .str ∧
    lookupKey (responseShape status lmv etagv locv) "location" = locv.map .str := by
  cases lmv <;> cases etagv <;> cases locv <;>
    simp [responseShape, optField, lookupKey]

theorem response_dict_of_init (status : String)
    (lmOpt : Option PyDateTime) (etagv locv : Option String) (hst : status ≠ "") :
    (FhirBundleEntryResponse.init (.str status) etagv lmOpt locv).dict
      = responseShape status (lmOpt.map PyDateTime.isoformat) etagv locv := by
  cases lmOpt <;> cases etagv <;> cases locv <;>
    simp [FhirBundleEntryResponse.init, FhirBundleEntryResponse.dict, hst,
      responseShape, optField, removeEmptyElementsFromOrderedDict, isEmptyValue]

theorem response_roundtrip {parse : String → Option PyDateTime}
    {rd : JsonObject} (h : ResponseRoundTrippable parse rd) :
    ∃ r, FhirBundleEntryResponse.from_dict parse rd = some r ∧ r.dict = rd := by
  obtain ⟨status, lmv, etagv, locv, rfl, hst, hlm⟩ := h
  obtain ⟨hl1, hl2, hl3, hl4⟩ := responseShape_lookups status lmv etagv locv
  have h2 : getStatusArg (responseShape status lmv etagv locv)
      = some (.str status) := by simp [getStatusArg, hl1]
  have h3 := getOptStr_of_lookup_str hl3
  have h4 := getOptStr_of_lookup_str hl4
  cases lmv with
  | none =>
    have h1 : parseDateField parse (responseShape status none etagv locv)
        "lastModified" = some none :=
      parseDateField_of_lookup_none (by simpa using hl2)
    refine ⟨FhirBundleEntryResponse.init (.str status) etagv none locv, ?_, ?_⟩
    · simp [FhirBundleEntryResponse.from_dict, h1, h2, h3, h4]
    · simpa using response_dict_of_init status none etagv locv hst
  | some s =>
    obtain ⟨dt, hps, hiso⟩ := hlm s rfl
    have h1 : parseDateField parse (responseShape status (some s) etagv locv)
        "lastModified" = some (some dt) :=
      parseDateField_of_lookup_str (by simpa using hl2) hps
    refine ⟨FhirBundleEntryResponse.init (.str status) etagv (some dt) locv, ?_, ?_⟩
    · simp [FhirBundleEntryResponse.from_dict, h1, h2, h3, h4]
    · have := response_dict_of_init status (some dt) etagv locv hst
      simpa [hiso] using this

theorem entryShape_lookups (fu : Option String) (res rq rs : Option JsonObject)
    (lk : Option (List JsonObject)) (se : Option JsonObject) :
    lookupKey (entryShape fu res rq rs lk se) "fullUrl" = fu.map .str ∧
    lookupKey (entryShape fu res rq rs lk se) "resource" = res.map .obj ∧
    lookupKey (entryShape fu res rq rs lk se) "request" = rq.map .obj ∧
    lookupKey (entryShape fu res rq rs lk se) "response" = rs.map .obj ∧
    lookupKey (entryShape fu res rq rs lk se) "link"
      = lk.map (fun ls => .arr (ls.map .obj)) ∧
    lookupKey (entryShape fu res rq rs lk se) "search" = se.map .obj := by
  cases fu <;> cases res <;> cases rq <;> cases rs <;> cases lk <;> cases se <;>
    simp [entryShape, optField, lookupKey]

theorem mapObj_nonEmpty (res : Option JsonObject)
    (h : ∀ m, res = some m → m ≠ []) :
    ∀ v, res.map JsonValue.obj = some v → isEmptyValue v = false := by
  intro v hv
  cases res with
  | none => simp at hv
  | some m =>
    simp at hv
    rw [← hv]
    exact isEmptyValue_obj_of_ne (h m rfl)

theorem mapArrObj_nonEmpty (lk : Option (List JsonObject))
    (h : ∀ ls, lk = some ls → ls ≠ []) :
    ∀ v, lk.map (fun ls => JsonValue.arr (ls.map .obj)) = some v →
      isEmptyValue v = false := by
  intro v hv
  cases lk with
  | none => simp at hv
  | some ls =>
    simp at hv
    rw [← hv]
    refine isEmptyValue_arr_of_ne ?_
    simpa using h ls rfl

theorem removeEmpty_entryShape {fu : Option String} {res rq rs : Option JsonObject}
    {lk : Option (List JsonObject)} {se : Option JsonObject}
    (hres : ∀ m, res = some m → m ≠ [])
    (hrq : ∀ m, rq = some m → m ≠ [])
    (hrs : ∀ m, rs = some m → m ≠ [])
    (hlk : ∀ ls, lk = some ls → ls ≠ [])
    (hse : ∀ m, se = some m → m ≠ []) :
    removeEmptyElementsFromOrderedDict (entryShape fu res rq rs lk se)
      = entryShape fu res rq rs lk se := by
  rw [entryShape, removeEmpty_append, removeEmpty_append, removeEmpty_append,
    removeEmpty_append, removeEmpty_append,
    removeEmpty_optField _ (mapStr_nonEmpty fu),
    removeEmpty_optField _ (mapObj_nonEmpty res hres),
    removeEmpty_optField _ (mapObj_nonEmpty rq hrq),
    removeEmpty_optField _ (mapObj_nonEmpty rs hrs),
    removeEmpty_optField _ (mapArrObj_nonEmpty lk hlk),
    removeEmpty_optField _ (mapObj_nonEmpty se hse)]

theorem requestShape_ne_nil (url method : String) (imsv nmv nev : Option String) :
    requestShape url method imsv nmv nev ≠ [] := by
  simp [requestShape]

theorem responseShape_ne_nil (status : String) (lmv etagv locv : Option String) :
    responseShape status lmv etagv locv ≠ [] := by
  simp [responseShape]

theorem getResourceField_of_lookup {β : Type} (codec : Codec β)
    (mode : CompressedDictStorageMode) {d : JsonObject}
    {res : Option JsonObject}
    (h : lookupKey d "resource" = res.map .obj) :
    getResourceField codec d mode
      = some (res.map fun m => CompressedDict.construct codec m mode) := by
  cases res <;> simp [getResourceField, h]

theorem linkListFromJson_map_obj (ls : List JsonObject) :
    linkListFromJson (ls.map .obj) = some (ls.map FhirLink.from_dict) := by
  induction ls with
  | nil => rfl
  | cons m rest ih => simp [linkListFromJson, ih]

theorem entry_roundtrip {β : Type} {codec : Codec β} (hc : CodecLawful codec)
    {parse : String → Option PyDateTime} {d : JsonObject}
    (h : EntryRoundTrippable parse d) (mode : CompressedDictStorageMode) :
    ∃ e, FhirBundleEntry.from_dict codec parse d mode = some e ∧
      e.dict codec = some d := by
  obtain ⟨fu, res, rq, rs, lk, se, rfl, hres, hrq, hrs, hlk, hse⟩ := h
  obtain ⟨hl1, hl2, hl3, hl4, hl5, hl6⟩ := entryShape_lookups fu res rq rs lk se
  have g1 := getOptStr_of_lookup_str hl1
  have g2 := getResourceField_of_lookup codec mode hl2
  have g3 : ∃ reqF : Option FhirBundleEntryRequest,
      getRequestField parse (entryShape fu res rq rs lk se) = some reqF ∧
      reqF.map (fun r => JsonValue.obj r.dict) = rq.map .obj := by
    cases rq with
    | none => exact ⟨none, by simp [getRequestField, hl3], rfl⟩
    | some rd =>
      obtain ⟨r, hfd, hdict⟩ := request_roundtrip (hrq rd rfl)
      exact ⟨some r, by simp [getRequestField, hl3, hfd], by simp [hdict]⟩
  have g4 : ∃ respF : Option FhirBundleEntryResponse,
      getResponseField parse (entryShape fu res rq rs lk se) = some respF ∧
      respF.map (fun r => JsonValue.obj r.dict) = rs.map .obj := by
    cases rs with
    | none => exact ⟨none, by simp [getResponseField, hl4], rfl⟩
    | some rd =>
      obtain ⟨r, hfd, hdict⟩ := response_roundtrip (hrs rd rfl)
      exact ⟨some r, by simp [getResponseField, hl4, hfd], by simp [hdict]⟩
  have g5 : ∃ lkF : Option (List FhirLink),
      getLinkField (entryShape fu res rq rs lk se) = some lkF ∧
      lkF.map (fun ls => JsonValue.arr (ls.map fun l => .obj l.dict))
        = lk.map (fun ls => .arr (ls.map .obj)) := by
    cases lk with
    | none => exact ⟨none, by simp [getLinkField, hl5], rfl⟩
    | some ls =>
      refine ⟨some (ls.map FhirLink.from_dict), ?_, ?_⟩
      · simp [getLinkField, hl5, linkListFromJson_map_obj]
      · simp [FhirLink.from_dict, FhirLink.dict, List.map_map, Function.comp]
  have g6 : ∃ seF : Option FhirBundleEntrySearch,
      getSearchField (entryShape fu res rq rs lk se) = some seF ∧
      seF.map (fun s => JsonValue.obj s.dict) = se.map .obj := by
    cases se with
    | none => exact ⟨none, by simp [getSearchField, hl6], rfl⟩
    | some m =>
      exact ⟨some (FhirBundleEntrySearch.from_dict m),
        by simp [getSearchField, hl6],
        by simp [FhirBundleEntrySearch.from_dict, FhirBundleEntrySearch.dict]⟩
  obtain ⟨reqF, hreqF, hreqRender⟩ := g3
  obtain ⟨respF, hrespF, hrespRender⟩ := g4
  obtain ⟨lkF, hlkF, hlkRender⟩ := g5
  obtain ⟨seF, hseF, hseRender⟩ := g6
  have hrq' : ∀ m, rq = some m → m ≠ [] := by
    intro m hm
    obtain ⟨u, me, a, b, c, hshape, _⟩ := hrq m hm
    rw [hshape]
    exact requestShape_ne_nil u me a b c
  have hrs' : ∀ m, rs = some m → m ≠ [] := by
    intro m hm
    obtain ⟨st, a, b, c, hshape, _⟩ := hrs m hm
    rw [hshape]
    exact responseShape_ne_nil st a b c
  refine ⟨FhirBundleEntry.init codec fu
    ((res.map fun m => CompressedDict.construct codec m mode).map
      ResourceArg.container) reqF respF lkF seF mode, ?_, ?_⟩
  · simp [FhirBundleEntry.from_dict, g1, g2, hreqF, hrespF, hlkF, hseF]
  · cases res with
    | none =>
      have hparts : entryParts (β := β)
          { _resource := none, request := reqF, response := respF,
            fullUrl := fu, link := lkF, search := seF, storage_mode := mode }
          none
          = entryShape fu none rq rs lk se := by
        simp only [entryParts, entryShape, Option.map_none', hreqRender,
          hrespRender, hlkRender, hseRender]
      simp only [FhirBundleEntry.dict, FhirBundleEntry.init, Option.map_none']
      rw [hparts, removeEmpty_entryShape hres hrq' hrs' hlk hse]
    | some m =>
      have hparts : entryParts (β := β)
          { _resource := some (CompressedDict.construct codec m mode),
            request := reqF, response := respF, fullUrl := fu, link := lkF,
            search := seF, storage_mode := mode }
          (some m)
          = entryShape fu (some m) rq rs lk se := by
        simp only [entryParts, entryShape, Option.map_some', hreqRender,
          hrespRender, hlkRender, hseRender]
      simp only [FhirBundleEntry.dict, FhirBundleEntry.init, Option.map_some',
        CompressedDict.dict_construct hc]
      rw [hparts, removeEmpty_entryShape hres hrq' hrs' hlk hse]

theorem toDigitsCore_length_le (b : Nat) (fuel : Nat) : ∀ (n : Nat) (ds : List Char),
    ds.length ≤ (Nat.toDigitsCore b fuel n ds).length := by
  induction fuel with
  | zero => intro n ds; simp [Nat.toDigitsCore]
  | succ f ih =>
    intro n ds
    simp only [Nat.toDigitsCore]
    split
    · simp
    · calc ds.length ≤ (Nat.digitChar (n % b) :: ds).length := by simp
        _ ≤ _ := ih _ _

theorem toDigits_length_pos (b n : Nat) : 0 < (Nat.toDigits b n).length := by
  unfold Nat.toDigits
  simp only [Nat.toDigitsCore]
  split
  · simp
  · calc 0 < (Nat.digitChar (n % b) :: []).length := by simp
      _ ≤ _ := toDigitsCore_length_le _ _ _ _

theorem natRepr_ne_empty (n : Nat) : Nat.repr n ≠ "" := by
  intro h
  have := congrArg String.data h
  simp only [Nat.repr] at this
  have h2 : (Nat.toDigits 10 n) = [] := by
    simpa [List.asString] using this
  have := toDigits_length_pos 10 n
  rw [h2] at this
  simp at this

theorem intToString_ne_empty (n : Int) : toString n ≠ "" := by
  show Int.repr n ≠ ""
  cases n with
  | ofNat m => exact natRepr_ne_empty m
  | negSucc m =>
    intro h
    have := congrArg String.data h
    simp only [Int.repr] at this
    simp [String.data_append] at this

theorem lookupKey_filter_none {d : JsonObject} {k : String}
    (p : String × JsonValue → Bool) (h : lookupKey d k = none) :
    lookupKey (d.filter p) k = none := by
  induction d with
  | nil => rfl
  | cons kv rest ih =>
    obtain ⟨k', v⟩ := kv
    by_cases hk : k' = k
    · simp [lookupKey, hk] at h
    · simp only [lookupKey, hk, if_false] at h
      simp only [List.filter]
      cases p (k', v) with
      | true => simp [lookupKey, hk, ih h]
      | false => exact ih h

theorem entryParts_lookups {β : Type} (e : FhirBundleEntry β)
    (rdOpt : Option JsonObject) :
    lookupKey (entryParts e rdOpt) "fullUrl" = e.fullUrl.map .str ∧
    lookupKey (entryParts e rdOpt) "resource" = rdOpt.map .obj ∧
    lookupKey (entryParts e rdOpt) "request"
      = e.request.map (fun r => .obj r.dict) ∧
    lookupKey (entryParts e rdOpt) "response"
      = e.response.map (fun r => .obj r.dict) ∧
    lookupKey (entryParts e rdOpt) "link"
      = e.link.map (fun ls => .arr (ls.map fun l => .obj l.dict)) ∧
    lookupKey (entryParts e rdOpt) "search"
      = e.search.map (fun s => .obj s.dict) := by
  obtain ⟨res, req, resp, fu, lk, se, mode⟩ := e
  cases fu <;> cases rdOpt <;> cases req <;> cases resp <;> cases lk <;> cases se <;>
    simp [entryParts, optField, lookupKey]

theorem request_dict_lookups (r : FhirBundleEntryRequest) :
    lookupKey r.dict "url" = some (.str r.url) ∧
    lookupKey r.dict "method" = some (.str r.method) ∧
    lookupKey r.dict "ifModifiedSince"
      = r.ifModifiedSince.map (fun dt => .str dt.isoformat) ∧
    lookupKey r.dict "ifNoneMatch" = r.ifNoneMatch.map .str ∧
    lookupKey r.dict "ifNoneExist" = r.ifNoneExist.map .str := by
  obtain ⟨url, method, ims, nm, nev⟩ := r
  cases ims <;> cases nm <;> cases nev <;>
    simp [FhirBundleEntryRequest.dict, removeEmptyElementsFromOrderedDict,
      optField, lookupKey, isEmptyValue]

theorem response_dict_lookups (r : FhirBundleEntryResponse) :
    lookupKey r.dict "status" = some (.str r.status) ∧
    lookupKey r.dict "lastModified"
      = r.lastModified.map (fun dt => .str dt.isoformat) ∧
    lookupKey r.dict "etag" = r.etag.map .str ∧
    lookupKey r.dict "location" = r.location.map .str := by
  obtain ⟨status, lm, etag, loc⟩ := r
  cases lm <;> cases etag <;> cases loc <;>
    simp [FhirBundleEntryResponse.dict, removeEmptyElementsFromOrderedDict,
      optField, lookupKey, isEmptyValue]

theorem FhirBundleEntry.dict_some_shape {β : Type} {codec : Codec β}
    {e : FhirBundleEntry β} {out : JsonObject} (h : e.dict codec = some out) :
    ∃ rdOpt : Option JsonObject,
      out = removeEmptyElementsFromOrderedDict (entryParts e rdOpt) ∧
      (e._resource = none → rdOpt = none) := by
  cases hres : e._resource with
  | none =>
    rw [FhirBundleEntry.dict, hres] at h
    exact ⟨none, by injection h with h'; rw [h'], fun _ => rfl⟩
  | some r =>
    simp only [FhirBundleEntry.dict, hres] at h
    cases hd : r.dict codec with
    | none =>
      simp only [hd] at h
      cases h
    | some rd =>
      simp only [hd] at h
      exact ⟨some rd, (Option.some.inj h).symm, fun hn => by cases hn⟩

theorem keys_optField_sublist (k : String) (o : Option JsonValue) :
    ((optField k o).map Prod.fst).Sublist [k] := by
  cases o <;> simp [optField]

theorem keys_removeEmpty_sublist (d : JsonObject) :
    ((removeEmptyElementsFromOrderedDict d).map Prod.fst).Sublist
      (d.map Prod.fst) :=
  List.Sublist.map _ (List.filter_sublist d)

theorem entryParts_keys_sublist {β : Type} (e : FhirBundleEntry β)
    (rdOpt : Option JsonObject) :
    ((entryParts e rdOpt).map Prod.fst).Sublist entryKeyOrder := by
  have h := ((keys_optField_sublist "fullUrl" (e.fullUrl.map .str)).append
    ((keys_optField_sublist "resource" (rdOpt.map .obj)).append
      ((keys_optField_sublist "request" (e.request.map fun r => .obj r.dict)).append
        ((keys_optField_sublist "response" (e.response.map fun r => .obj r.dict)).append
          ((keys_optField_sublist "link"
              (e.link.map fun ls => .arr (ls.map fun l => .obj l.dict))).append
            (keys_optField_sublist "search" (e.search.map fun s => .obj s.dict)))))))
  simpa [entryParts, entryKeyOrder] using h

theorem request_dict_keys_sublist (r : FhirBundleEntryRequest) :
    (r.dict.map Prod.fst).Sublist requestKeyOrder := by
  refine (keys_removeEmpty_sublist _).trans ?_
  have h := (List.Sublist.refl ["url", "method"]).append
    ((keys_optField_sublist "ifModifiedSince"
        (r.ifModifiedSince.map fun dt => .str dt.isoformat)).append
      ((keys_optField_sublist "ifNoneMatch" (r.ifNoneMatch.map .str)).append
        (keys_optField_sublist "ifNoneExist" (r.ifNoneExist.map .str))))
  simpa [requestKeyOrder] using h

theorem response_dict_keys_sublist (r : FhirBundleEntryResponse) :
    (r.dict.map Prod.fst).Sublist responseKeyOrder := by
  refine (keys_removeEmpty_sublist _).trans ?_
  have h := (List.Sublist.refl ["status"]).append
    ((keys_optField_sublist "lastModified"
        (r.lastModified.map fun dt => .str dt.isoformat)).append
      ((keys_optField_sublist "etag" (r.etag.map .str)).append
        (keys_optField_sublist "location" (r.location.map .str))))
  simpa [responseKeyOrder] using h

theorem Heap.get_alloc_self {β : Type} (h : Heap β) (c : CompressedDict β) :
    (h.alloc c).2.get (h.alloc c).1 = some c := by
  simp only [Heap.alloc, Heap.get]
  exact List.getElem?_concat_length h.store c

theorem Heap.get_alloc_old {β : Type} (h : Heap β) (c : CompressedDict β)
    {a : Nat} (ha : a < h.store.length) :
    (h.alloc c).2.get a = h.get a := by
  simp only [Heap.alloc, Heap.get]
  exact List.getElem?_append_left ha

theorem Heap.get_write_ne {β : Type} (h : Heap β) {a b : Nat}
    (hab : a ≠ b) (c : CompressedDict β) :
    (h.write a c).get b = h.get b := by
  simp only [Heap.write, Heap.get]
  exact List.getElem?_set_ne hab

theorem Heap.get_of_lt {β : Type} (h : Heap β) {a : Nat}
    (ha : a < h.store.length) : ∃ r, h.get a = some r :=
  ⟨h.store[a], List.getElem?_eq_getElem ha⟩

/-- C8: for every supported JSON-like document `d` and every storage mode
`m`, materializing the encoding of `d` under `m` (constructing a container
from `d` and reading it back through `dict()`) yields `d` exactly,
including key order and value types, for any codec satisfying the spec's
`decode(encode(x)) == x` contract. -/
theorem C8_storage_roundtrip {β : Type} (codec : Codec β)
    (hc : CodecLawful codec) (d : JsonObject)
    (mode : CompressedDictStorageMode) :
    (CompressedDict.construct codec d mode).dict codec = some d :=
  CompressedDict.dict_construct hc d mode

theorem C8_storage_roundtrip_witness :
    (CompressedDict.construct idCodec
        [("resourceType", .str "Patient"), ("id", .str "123")]
        CompressedDictStorageMode.compressed).dict idCodec
      = some [("resourceType", .str "Patient"), ("id", .str "123")] :=
  C8_storage_roundtrip idCodec (fun _ => rfl)
    [("resourceType", .str "Patient"), ("id", .str "123")]
    CompressedDictStorageMode.compressed

/-- C7: constructing a `FhirBundleEntry` without passing `storage_mode`
explicitly uses `CompressedDictStorageMode.default()` (the Python default
parameter value of both `__init__` and `construct`): the default is the
mode stored on the entry and the mode of the resource container it creates
from a plain mapping, and `construct` delegates to `__init__`
unchanged. -/
theorem C7_default_storage_mode {β : Type} (codec : Codec β)
    (fu : Option String) (m : JsonObject)
    (req : Option FhirBundleEntryRequest)
    (resp : Option FhirBundleEntryResponse) (lk : Option (List FhirLink))
    (se : Option FhirBundleEntrySearch) :
    (FhirBundleEntry.init codec fu (some (.dict m)) req resp lk se
        CompressedDictStorageMode.default).storage_mode
      = CompressedDictStorageMode.default ∧
    (∃ c, (FhirBundleEntry.init codec fu (some (.dict m)) req resp lk se
        CompressedDictStorageMode.default)._resource = some c ∧
      c.storage_mode = CompressedDictStorageMode.default) ∧
    FhirBundleEntry.construct codec fu (some (.dict m)) req resp lk se
        CompressedDictStorageMode.default
      = FhirBundleEntry.init codec fu (some (.dict m)) req resp lk se
        CompressedDictStorageMode.default :=
  ⟨rfl,
    ⟨CompressedDict.construct codec m CompressedDictStorageMode.default, rfl,
      CompressedDict.construct_storage_mode codec m _⟩,
    rfl⟩

/-- C2: for every `FhirBundleEntry`, `FhirBundleEntryRequest` and
`FhirBundleEntryResponse`, an optional field's key appears in the mapping
returned by `dict()` only if that field is set (not `None`): when the field
is unset its key is entirely absent from the output — never emitted as a
null or empty placeholder. -/
theorem C2_optional_fields_omitted :
    (∀ (β : Type) (codec : Codec β) (e : FhirBundleEntry β) (out : JsonObject),
      e.dict codec = some out →
      (e.fullUrl = none → lookupKey out "fullUrl" = none) ∧
      (e._resource = none → lookupKey out "resource" = none) ∧
      (e.request = none → lookupKey out "request" = none) ∧
      (e.response = none → lookupKey out "response" = none) ∧
      (e.link = none → lookupKey out "link" = none) ∧
      (e.search = none → lookupKey out "search" = none)) ∧
    (∀ r : FhirBundleEntryRequest,
      (r.ifModifiedSince = none → lookupKey r.dict "ifModifiedSince" = none) ∧
      (r.ifNoneMatch = none → lookupKey r.dict "ifNoneMatch" = none) ∧
      (r.ifNoneExist = none → lookupKey r.dict "ifNoneExist" = none)) ∧
    (∀ r : FhirBundleEntryResponse,
      (r.lastModified = none → lookupKey r.dict "lastModified" = none) ∧
      (r.etag = none → lookupKey r.dict "etag" = none) ∧
      (r.location = none → lookupKey r.dict "location" = none)) := by
  refine ⟨?_, ?_, ?_⟩
  · intro β codec e out h
    obtain ⟨rdOpt, rfl, hnone⟩ := FhirBundleEntry.dict_some_shape h
    obtain ⟨p1, p2, p3, p4, p5, p6⟩ := entryParts_lookups e rdOpt
    refine ⟨fun hf => ?_, fun hf => ?_, fun hf => ?_, fun hf => ?_,
      fun hf => ?_, fun hf => ?_⟩
    · exact lookupKey_filter_none _ (by rw [p1, hf]; rfl)
    · exact lookupKey_filter_none _ (by rw [p2, hnone hf]; rfl)
    · exact lookupKey_filter_none _ (by rw [p3, hf]; rfl)
    · exact lookupKey_filter_none _ (by rw [p4, hf]; rfl)
    · exact lookupKey_filter_none _ (by rw [p5, hf]; rfl)
    · exact lookupKey_filter_none _ (by rw [p6, hf]; rfl)
  · intro r
    obtain ⟨q1, q2, q3, q4, q5⟩ := request_dict_lookups r
    exact ⟨fun hf => by rw [q3, hf]; rfl,
      fun hf => by rw [q4, hf]; rfl,
      fun hf => by rw [q5, hf]; rfl⟩
  · intro r
    obtain ⟨q1, q2, q3, q4⟩ := response_dict_lookups r
    exact ⟨fun hf => by rw [q2, hf]; rfl,
      fun hf => by rw [q3, hf]; rfl,
      fun hf => by rw [q4, hf]; rfl⟩

theorem C2_optional_fields_omitted_witness :
    (FhirBundleEntry.init (β := JsonObject) idCodec none none none none none
        none CompressedDictStorageMode.raw).dict idCodec = some [] ∧
    lookupKey [] "fullUrl" = none :=
  ⟨rfl,
    (C2_optional_fields_omitted.1 JsonObject idCodec
      (FhirBundleEntry.init idCodec none none none none none none
        CompressedDictStorageMode.raw) [] rfl).1 rfl⟩

/-- C3: the keys of every `dict()` output appear in the fixed declared
order: `fullUrl, resource, request, response, link, search` for the entry,
`url, method, ifModifiedSince, ifNoneMatch, ifNoneExist` for the request
and `status, lastModified, etag, location` for the response — i.e. each
output's key sequence is a sublist of the declared order. -/
theorem C3_key_order :
    (∀ (β : Type) (codec : Codec β) (e : FhirBundleEntry β) (out : JsonObject),
      e.dict codec = some out → (out.map Prod.fst).Sublist entryKeyOrder) ∧
    (∀ r : FhirBundleEntryRequest,
      (r.dict.map Prod.fst).Sublist requestKeyOrder) ∧
    (∀ r : FhirBundleEntryResponse,
      (r.dict.map Prod.fst).Sublist responseKeyOrder) := by
  refine ⟨?_, request_dict_keys_sublist, response_dict_keys_sublist⟩
  intro β codec e out h
  obtain ⟨rdOpt, rfl, _⟩ := FhirBundleEntry.dict_some_shape h
  exact (keys_removeEmpty_sublist _).trans (entryParts_keys_sublist e rdOpt)

theorem C3_key_order_witness :
    (FhirBundleEntry.init (β := JsonObject) idCodec (some "u") none
        (some (FhirBundleEntryRequest.init "https://x" "GET" none none none))
        none none none CompressedDictStorageMode.raw).dict idCodec
      = some [("fullUrl", JsonValue.str "u"),
          ("request", .obj [("url", .str "https://x"), ("method", .str "GET")])] ∧
    (([("fullUrl", JsonValue.str "u"),
        ("request", JsonValue.obj [("url", .str "https://x"),
          ("method", .str "GET")])].map Prod.fst).Sublist entryKeyOrder) :=
  ⟨rfl,
    C3_key_order.1 JsonObject idCodec
      (FhirBundleEntry.init idCodec (some "u") none
        (some (FhirBundleEntryRequest.init "https://x" "GET" none none none))
        none none none CompressedDictStorageMode.raw)
      [("fullUrl", JsonValue.str "u"),
        ("request", JsonValue.obj [("url", .str "https://x"),
          ("method", .str "GET")])] rfl⟩

/-- C9: a `FhirBundleEntryRequest` never stores an empty `url` or `method`:
the constructor replaces a falsy `url` by `"https://example.com"` and a
falsy `method` by `"GET"`, `from_dict` supplies the same defaults when the
keys are absent, and `dict()` therefore always contains non-empty `url` and
`method` entries. -/
theorem C9_request_url_method_defaults :
    (∀ (url method : String) (nm : Option String) (ims : Option PyDateTime)
        (nev : Option String),
      (FhirBundleEntryRequest.init url method nm ims nev).url ≠ "" ∧
      (FhirBundleEntryRequest.init url method nm ims nev).method ≠ "" ∧
      (url = "" →
        (FhirBundleEntryRequest.init url method nm ims nev).url
          = "https://example.com") ∧
      (method = "" →
        (FhirBundleEntryRequest.init url method nm ims nev).method = "GET")) ∧
    (∀ (parse : String → Option PyDateTime) (d : JsonObject)
        (r : FhirBundleEntryRequest),
      FhirBundleEntryRequest.from_dict parse d = some r →
      r.url ≠ "" ∧ r.method ≠ "" ∧
      (lookupKey d "url" = none → r.url = "https://example.com") ∧
      (lookupKey d "method" = none → r.method = "GET")) ∧
    (∀ r : FhirBundleEntryRequest,
      lookupKey r.dict "url" = some (.str r.url) ∧
      lookupKey r.dict "method" = some (.str r.method)) := by
  refine ⟨?_, ?_, fun r => ⟨(request_dict_lookups r).1,
    (request_dict_lookups r).2.1⟩⟩
  · intro url method nm ims nev
    refine ⟨?_, ?_, fun hu => ?_, fun hm => ?_⟩
    · by_cases hu : url = "" <;> simp [FhirBundleEntryRequest.init, hu]
    · by_cases hm : method = "" <;> simp [FhirBundleEntryRequest.init, hm]
    · simp [FhirBundleEntryRequest.init, hu]
    · simp [FhirBundleEntryRequest.init, hm]
  · intro parse d r h
    simp only [FhirBundleEntryRequest.from_dict, Option.bind_eq_some] at h
    obtain ⟨imsO, h1, h⟩ := h
    obtain ⟨url', h2, h⟩ := h
    obtain ⟨method', h3, h⟩ := h
    obtain ⟨nm', h4, h⟩ := h
    obtain ⟨nev', h5, h⟩ := h
    simp only [Option.some.injEq] at h
    subst h
    refine ⟨?_, ?_, fun hl => ?_, fun hl => ?_⟩
    · by_cases hu : url' = "" <;> simp [FhirBundleEntryRequest.init, hu]
    · by_cases hm : method' = "" <;> simp [FhirBundleEntryRequest.init, hm]
    · simp only [getStrOrDefault, hl, Option.some.injEq] at h2
      subst h2
      simp [FhirBundleEntryRequest.init]
    · simp only [getStrOrDefault, hl, Option.some.injEq] at h3
      subst h3
      simp [FhirBundleEntryRequest.init]

theorem C9_request_url_method_defaults_witness :
    FhirBundleEntryRequest.from_dict (fun _ => none) []
      = some (FhirBundleEntryRequest.init "https://example.com" "GET"
          none none none) ∧
    ((FhirBundleEntryRequest.init "https://example.com" "GET"
        none none none).url ≠ "" ∧
      (FhirBundleEntryRequest.init "https://example.com" "GET"
        none none none).method ≠ "" ∧
      (lookupKey [] "url" = none →
        (FhirBundleEntryRequest.init "https://example.com" "GET"
          none none none).url = "https://example.com") ∧
      (lookupKey [] "method" = none →
        (FhirBundleEntryRequest.init "https://example.com" "GET"
          none none none).method = "GET")) :=
  ⟨rfl, C9_request_url_method_defaults.2.1 (fun _ => none) []
    (FhirBundleEntryRequest.init "https://example.com" "GET" none none none)
    rfl⟩

/-- C10: a `FhirBundleEntryResponse` always stores a non-empty string
`status`: an integer status argument is converted with `str()` (so `0`
becomes `"0"`), an empty string becomes `"200"`, `from_dict` defaults a
missing `status` key to `"200"`, and `dict()` always contains a `status`
key bound to that string. -/
theorem C10_response_status_invariant :
    (∀ (n : Int) (etag : Option String) (lm : Option PyDateTime)
        (loc : Option String),
      (FhirBundleEntryResponse.init (.int n) etag lm loc).status
        = toString n) ∧
    (FhirBundleEntryResponse.init (.int 0) none none none).status = "0" ∧
    (∀ (etag : Option String) (lm : Option PyDateTime) (loc : Option String),
      (FhirBundleEntryResponse.init (.str "") etag lm loc).status = "200") ∧
    (∀ (s : StatusArg) (etag : Option String) (lm : Option PyDateTime)
        (loc : Option String),
      (FhirBundleEntryResponse.init s etag lm loc).status ≠ "") ∧
    (∀ (parse : String → Option PyDateTime) (d : JsonObject)
        (r : FhirBundleEntryResponse),
      FhirBundleEntryResponse.from_dict parse d = some r →
      (lookupKey d "status" = none → r.status = "200") ∧ r.status ≠ "") ∧
    (∀ r : FhirBundleEntryResponse,
      lookupKey r.dict "status" = some (.str r.status)) := by
  refine ⟨fun n etag lm loc => rfl, by decide, fun etag lm loc => rfl, ?_, ?_,
    fun r => (response_dict_lookups r).1⟩
  · intro s etag lm loc
    cases s with
    | str s => by_cases hs : s = "" <;> simp [FhirBundleEntryResponse.init, hs]
    | int n =>
      simpa [FhirBundleEntryResponse.init] using intToString_ne_empty n
  · intro parse d r h
    simp only [FhirBundleEntryResponse.from_dict, Option.bind_eq_some] at h
    obtain ⟨lm', h1, h⟩ := h
    obtain ⟨status', h2, h⟩ := h
    obtain ⟨etag', h3, h⟩ := h
    obtain ⟨loc', h4, h⟩ := h
    simp only [Option.some.injEq] at h
    subst h
    constructor
    · intro hl
      simp only [getStatusArg, hl, Option.some.injEq] at h2
      subst h2
      simp [FhirBundleEntryResponse.init]
    · cases status' with
      | str s =>
        by_cases hs : s = "" <;> simp [FhirBundleEntryResponse.init, hs]
      | int n =>
        simpa [FhirBundleEntryResponse.init] using intToString_ne_empty n

theorem C10_response_status_invariant_witness :
    FhirBundleEntryResponse.from_dict (fun _ => none) []
      = some (FhirBundleEntryResponse.init (.str "200") none none none) ∧
    ((lookupKey [] "status" = none →
        (FhirBundleEntryResponse.init (.str "200") none none none).status
          = "200") ∧
      (FhirBundleEntryResponse.init (.str "200") none none none).status ≠ "") :=
  ⟨rfl, C10_response_status_invariant.2.2.2.2.1 (fun _ => none) []
    (FhirBundleEntryResponse.init (.str "200") none none none) rfl⟩

/-- C1 (counterexample): the round trip is not the identity on every
mapping with declared-shape values.  For
`d = {"request": {"url": "https://fhir.example.com/Patient/1"}}`,
`FhirBundleEntry.from_dict(d, m).dict()` adds the defaulted
`"method": "GET"` binding to the request (and would likewise default an
absent or falsy `url`), so the output differs from `d`. -/
theorem C1_roundtrip_counterexample :
    (FhirBundleEntry.from_dict (β := JsonObject) idCodec (fun _ => none)
        [("request", .obj [("url", .str "https://fhir.example.com/Patient/1")])]
        CompressedDictStorageMode.raw).bind (fun e => e.dict idCodec)
      = some [("request", .obj
          [("url", .str "https://fhir.example.com/Patient/1"),
           ("method", .str "GET")])] ∧
    some [("request", JsonValue.obj
          [("url", .str "https://fhir.example.com/Patient/1"),
           ("method", .str "GET")])]
      ≠ (some [("request", JsonValue.obj
          [("url", .str "https://fhir.example.com/Patient/1")])]
          : Option JsonObject) := by
  constructor
  · rfl
  · simp

/-- C1 (amended): for every mapping `d` whose keys are among
`{fullUrl, resource, request, response, link, search}` in declared order
with values of the declared shapes, and which avoids the values the layer
normalizes — `request.url`/`request.method` present and non-empty,
`response.status` present and a non-empty string, datetime fields absent or
canonical isoformat strings, and present `resource`/`search` mappings and
the `link` list non-empty — `FhirBundleEntry.from_dict(d, m).dict()` equals
`d` exactly, for every storage mode `m` and lawful codec. -/
theorem C1_roundtrip_amended {β : Type} (codec : Codec β)
    (hc : CodecLawful codec) (parse : String → Option PyDateTime)
    (d : JsonObject) (h : EntryRoundTrippable parse d)
    (mode : CompressedDictStorageMode) :
    ∃ e, FhirBundleEntry.from_dict codec parse d mode = some e ∧
      e.dict codec = some d :=
  entry_roundtrip hc h mode

theorem C1_roundtrip_amended_witness :
    ∃ e, FhirBundleEntry.from_dict (β := JsonObject) idCodec (fun _ => none)
        [("fullUrl", .str "https://example.com/Patient/1"),
         ("resource", .obj [("resourceType", .str "Patient"), ("id", .str "1")]),
         ("request", .obj [("url", .str "https://example.com"),
           ("method", .str "GET")])]
        CompressedDictStorageMode.compressed = some e ∧
      e.dict idCodec = some
        [("fullUrl", .str "https://example.com/Patient/1"),
         ("resource", .obj [("resourceType", .str "Patient"), ("id", .str "1")]),
         ("request", .obj [("url", .str "https://example.com"),
           ("method", .str "GET")])] :=
  C1_roundtrip_amended idCodec (fun _ => rfl) (fun _ => none)
    [("fullUrl", .str "https://example.com/Patient/1"),
     ("resource", .obj [("resourceType", .str "Patient"), ("id", .str "1")]),
     ("request", .obj [("url", .str "https://example.com"),
       ("method", .str "GET")])]
    (by
      refine ⟨some "https://example.com/Patient/1",
        some [("resourceType", .str "Patient"), ("id", .str "1")],
        some [("url", .str "https://example.com"), ("method", .str "GET")],
        none, none, none, rfl, ?_, ?_, ?_, ?_, ?_⟩
      · intro m hm
        injection hm with h2
        subst h2
        simp
      · intro rd hm
        injection hm with h2
        subst h2
        exact ⟨"https://example.com", "GET", none, none, none, rfl, by simp,
          by simp, fun s hs => nomatch hs⟩
      · intro rd hm
        cases hm
      · intro ls hm
        cases hm
      · intro m hm
        cases hm)
    CompressedDictStorageMode.compressed

theorem deepcopyH_spec {β : Type} (codec : Codec β) (h : Heap β)
    (e : FhirBundleEntryH) {a : Nat} {r : CompressedDict β}
    (ha : e.resourceAddr = some a) (hr : h.get a = some r) :
    (FhirBundleEntryH.deepcopy codec h e).1.resourceAddr
        = some h.store.length ∧
    (FhirBundleEntryH.deepcopy codec h e).2 = ⟨h.store ++ [r]⟩ := by
  simp only [FhirBundleEntryH.deepcopy, ha, hr, Heap.alloc,
    CompressedDict.deep_copy, FhirBundleEntryH.init]
  exact ⟨trivial, trivial⟩

theorem dictH_congr {β : Type} (codec : Codec β) {g g' : Heap β}
    (e : FhirBundleEntryH) {x : Nat} (hx : e.resourceAddr = some x)
    (hg : g.get x = g'.get x) :
    FhirBundleEntryH.dict codec g e = FhirBundleEntryH.dict codec g' e := by
  simp only [FhirBundleEntryH.dict, hx, hg]

/-- C4: `copy()` / `copy.deepcopy` on a `FhirBundleEntry` produces a fully
independent duplicate: the copy's resource container lives at a fresh
address, so writing the original's container instance (the effect of
`replace` or of field mutations inside a transaction scope) leaves the
copy's container and the copy's `dict()` output unchanged, and writing the
copy's container leaves the original's `dict()` output unchanged.  (The
entry records themselves are values in this embedding, so rebinding a
non-container field of one entry cannot affect the other; the container
address is the only shared mutable state.) -/
theorem C4_deepcopy_independent {β : Type} (codec : Codec β) (h : Heap β)
    (e : FhirBundleEntryH) (a : Nat) (ha : e.resourceAddr = some a)
    (hlt : a < h.store.length) :
    ∃ a', (FhirBundleEntryH.copy codec h e).1.resourceAddr = some a' ∧
      a' ≠ a ∧
      (∀ c, ((FhirBundleEntryH.copy codec h e).2.write a c).get a'
        = (FhirBundleEntryH.copy codec h e).2.get a') ∧
      (∀ c, FhirBundleEntryH.dict codec
          ((FhirBundleEntryH.copy codec h e).2.write a c)
          (FhirBundleEntryH.copy codec h e).1
        = FhirBundleEntryH.dict codec (FhirBundleEntryH.copy codec h e).2
          (FhirBundleEntryH.copy codec h e).1) ∧
      (∀ c, FhirBundleEntryH.dict codec
          ((FhirBundleEntryH.copy codec h e).2.write a' c) e
        = FhirBundleEntryH.dict codec (FhirBundleEntryH.copy codec h e).2
          e) := by
  obtain ⟨r, hr⟩ := Heap.get_of_lt h hlt
  obtain ⟨hc1, hc2⟩ := deepcopyH_spec codec h e ha hr
  refine ⟨h.store.length, hc1, Nat.ne_of_gt hlt, ?_, ?_, ?_⟩
  · intro c
    exact Heap.get_write_ne _ (Nat.ne_of_lt hlt) c
  · intro c
    exact dictH_congr codec _ hc1 (Heap.get_write_ne _ (Nat.ne_of_lt hlt) c)
  · intro c
    exact dictH_congr codec e ha (Heap.get_write_ne _ (Nat.ne_of_gt hlt) c)

theorem C4_deepcopy_independent_witness :
    ∃ a', (FhirBundleEntryH.copy (β := JsonObject) idCodec exampleHeap
        exampleEntryH).1.resourceAddr = some a' ∧
      a' ≠ 0 ∧
      (∀ c, ((FhirBundleEntryH.copy idCodec exampleHeap
          exampleEntryH).2.write 0 c).get a'
        = (FhirBundleEntryH.copy idCodec exampleHeap exampleEntryH).2.get a') ∧
      (∀ c, FhirBundleEntryH.dict idCodec
          ((FhirBundleEntryH.copy idCodec exampleHeap exampleEntryH).2.write 0 c)
          (FhirBundleEntryH.copy idCodec exampleHeap exampleEntryH).1
        = FhirBundleEntryH.dict idCodec
          (FhirBundleEntryH.copy idCodec exampleHeap exampleEntryH).2
          (FhirBundleEntryH.copy idCodec exampleHeap exampleEntryH).1) ∧
      (∀ c, FhirBundleEntryH.dict idCodec
          ((FhirBundleEntryH.copy idCodec exampleHeap exampleEntryH).2.write a' c)
          exampleEntryH
        = FhirBundleEntryH.dict idCodec
          (FhirBundleEntryH.copy idCodec exampleHeap exampleEntryH).2
          exampleEntryH) :=
  C4_deepcopy_independent idCodec exampleHeap exampleEntryH 0 rfl
    (by simp [exampleHeap])

/-- C5 (counterexample): container ownership is not exclusive.  The
constructor stores a caller-supplied `CompressedDict` instance as-is, so
two `FhirBundleEntry` objects built from the same `FhirResource` reference
hold the very same container instance (address 0 of the heap). -/
theorem C5_sharing_counterexample :
    (FhirBundleEntryH.init (β := JsonObject) idCodec exampleHeap none
        (some (.ref 0)) none none none none
        CompressedDictStorageMode.raw).1.resourceAddr = some 0 ∧
    (FhirBundleEntryH.init (β := JsonObject) idCodec exampleHeap
        (some "https://example.com/Patient/1") (some (.ref 0)) none none none
        none CompressedDictStorageMode.raw).1.resourceAddr = some 0 :=
  ⟨rfl, rfl⟩

/-- C5 (amended): when the resource is supplied as a plain mapping — to the
constructor, or to the `resource` setter while no container exists yet —
the entry allocates a fresh container instance shared with no previously
existing reference; sharing can arise only by handing an existing
`CompressedDict` instance to the entry. -/
theorem C5_fresh_container_amended {β : Type} (codec : Codec β) (h : Heap β)
    (fu : Option String) (m : JsonObject)
    (req : Option FhirBundleEntryRequest)
    (resp : Option FhirBundleEntryResponse) (lk : Option (List FhirLink))
    (se : Option FhirBundleEntrySearch) (mode : CompressedDictStorageMode) :
    (∃ a, (FhirBundleEntryH.init codec h fu (some (.dict m)) req resp lk se
        mode).1.resourceAddr = some a ∧
      ∀ b, b < h.store.length → a ≠ b) ∧
    (∀ e : FhirBundleEntryH, e.resourceAddr = none →
      ∃ a, (FhirBundleEntryH.setResource codec h e
          (some (.dict m))).1.resourceAddr = some a ∧
        ∀ b, b < h.store.length → a ≠ b) := by
  constructor
  · exact ⟨h.store.length, rfl, fun b hb => Nat.ne_of_gt hb⟩
  · intro e he
    simp only [FhirBundleEntryH.setResource, he, Heap.alloc]
    exact ⟨h.store.length, rfl, fun b hb => Nat.ne_of_gt hb⟩

theorem C5_fresh_container_amended_witness :
    (∃ a, (FhirBundleEntryH.init (β := JsonObject) idCodec exampleHeap none
        (some (.dict [("resourceType", .str "Patient")])) none none none none
        CompressedDictStorageMode.raw).1.resourceAddr = some a ∧
      ∀ b, b < exampleHeap.store.length → a ≠ b) ∧
    (∀ e : FhirBundleEntryH, e.resourceAddr = none →
      ∃ a, (FhirBundleEntryH.setResource idCodec exampleHeap e
          (some (.dict [("resourceType", .str "Patient")]))).1.resourceAddr
            = some a ∧
        ∀ b, b < exampleHeap.store.length → a ≠ b) :=
  C5_fresh_container_amended idCodec exampleHeap none
    [("resourceType", .str "Patient")] none none none none
    CompressedDictStorageMode.raw

/-- C6 (counterexample): `__deepcopy__` does not propagate the entry's own
`storage_mode` to the copied container.  An entry built with
`storage_mode=raw` around a caller-supplied container whose own mode is
`compressed` deep-copies into a container that is still `compressed`, not
`raw`. -/
theorem C6_mode_propagation_counterexample :
    ∃ c' : CompressedDict JsonObject,
      (FhirBundleEntry.deepcopy idCodec
        (FhirBundleEntry.init idCodec none
          (some (.container ⟨.materialized [("resourceType", .str "Patient")],
            CompressedDictStorageMode.compressed⟩))
          none none none none CompressedDictStorageMode.raw))._resource
        = some c' ∧
      c'.storage_mode ≠ (FhirBundleEntry.init (β := JsonObject) idCodec none
          (some (.container ⟨.materialized [("resourceType", .str "Patient")],
            CompressedDictStorageMode.compressed⟩))
          none none none none CompressedDictStorageMode.raw).storage_mode :=
  ⟨⟨.materialized [("resourceType", .str "Patient")],
    CompressedDictStorageMode.compressed⟩, rfl, by decide⟩

/-- C6 (amended): the entry's own `storage_mode` is propagated to the
resource container in the three creation paths — constructor from a plain
mapping, `from_dict`, and the `resource` setter when no container exists
yet; `__deepcopy__` instead preserves the copied container's own mode (so
the copy inherits the entry's mode exactly when the original container
already had it). -/
theorem C6_mode_propagation_amended {β : Type} (codec : Codec β) :
    (∀ (fu : Option String) (m : JsonObject)
        (req : Option FhirBundleEntryRequest)
        (resp : Option FhirBundleEntryResponse) (lk : Option (List FhirLink))
        (se : Option FhirBundleEntrySearch) (mode : CompressedDictStorageMode),
      ∃ c, (FhirBundleEntry.init codec fu (some (.dict m)) req resp lk se
          mode)._resource = some c ∧
        c.storage_mode = mode ∧
        (FhirBundleEntry.init codec fu (some (.dict m)) req resp lk se
          mode).storage_mode = mode) ∧
    (∀ (parse : String → Option PyDateTime) (d : JsonObject)
        (mode : CompressedDictStorageMode) (e : FhirBundleEntry β),
      FhirBundleEntry.from_dict codec parse d mode = some e →
      e.storage_mode = mode ∧
        ∀ c, e._resource = some c → c.storage_mode = mode) ∧
    (∀ (e : FhirBundleEntry β) (m : JsonObject), e._resource = none →
      ∃ c, (e.setResource codec (some (.dict m)))._resource = some c ∧
        c.storage_mode = e.storage_mode) ∧
    (∀ (e : FhirBundleEntry β) (c : CompressedDict β), e._resource = some c →
      ∃ c', (e.deepcopy codec)._resource = some c' ∧
        c'.storage_mode = c.storage_mode) := by
  refine ⟨?_, ?_, ?_, ?_⟩
  · intro fu m req resp lk se mode
    exact ⟨CompressedDict.construct codec m mode, rfl,
      CompressedDict.construct_storage_mode codec m mode, rfl⟩
  · intro parse d mode e h
    simp only [FhirBundleEntry.from_dict, Option.bind_eq_some] at h
    obtain ⟨fu, h1, h⟩ := h
    obtain ⟨resO, h2, h⟩ := h
    obtain ⟨reqO, h3, h⟩ := h
    obtain ⟨respO, h4, h⟩ := h
    obtain ⟨lkO, h5, h⟩ := h
    obtain ⟨seO, h6, h⟩ := h
    simp only [Option.some.injEq] at h
    subst h
    refine ⟨rfl, ?_⟩
    intro c hc
    cases hl : lookupKey d "resource" with
    | none =>
      simp only [getResourceField, hl, Option.some.injEq] at h2
      subst h2
      simp [FhirBundleEntry.init] at hc
    | some v =>
      cases v with
      | obj m =>
        simp only [getResourceField, hl, Option.some.injEq] at h2
        subst h2
        simp only [FhirBundleEntry.init, Option.map_some',
          Option.some.injEq] at hc
        rw [← hc]
        exact CompressedDict.construct_storage_mode codec m mode
      | null => simp [getResourceField, hl] at h2
      | bool b => simp [getResourceField, hl] at h2
      | int n => simp [getResourceField, hl] at h2
      | str s => simp [getResourceField, hl] at h2
      | date dt => simp [getResourceField, hl] at h2
      | arr xs => simp [getResourceField, hl] at h2
  · intro e m he
    simp only [FhirBundleEntry.setResource, he]
    exact ⟨CompressedDict.construct codec m e.storage_mode, rfl,
      CompressedDict.construct_storage_mode codec m e.storage_mode⟩
  · intro e c hc
    simp only [FhirBundleEntry.deepcopy, hc, Option.map_some',
      FhirBundleEntry.init]
    exact ⟨c.deep_copy, rfl, rfl⟩

theorem C6_mode_propagation_amended_witness :
    ∃ c', ((FhirBundleEntry.init (β := JsonObject) idCodec none
        (some (.container ⟨.materialized [("a", .str "b")],
          CompressedDictStorageMode.compressed⟩))
        none none none none CompressedDictStorageMode.raw).deepcopy
          idCodec)._resource = some c' ∧
      c'.storage_mode = CompressedDictStorageMode.compressed :=
  (C6_mode_propagation_amended idCodec).2.2.2
    (FhirBundleEntry.init idCodec none
      (some (.container ⟨.materialized [("a", .str "b")],
        CompressedDictStorageMode.compressed⟩))
      none none none none CompressedDictStorageMode.raw)
    ⟨.materialized [("a", .str "b")], CompressedDictStorageMode.compressed⟩
    rfl
